import Mathlib

/-!
Verification development for the task REST API (Express and Hono variants).

The definitions below are a shallow embedding of the repository's code:
  * `src/config/database.ts` — table schema and the `update_task_timestamp`
    trigger (timestamps are modelled as naturals; `datetime('now')` becomes an
    explicit `now` parameter passed to each operation),
  * `src/middleware/validate.ts` — the zod schemas (string lengths are
    code-point counts; for the ASCII strings exercised here this coincides
    with JavaScript's UTF-16 length),
  * `src/controllers/taskController.ts` (Hono) and
    `src/controllers/taskController.js` (Express) — the six CRUD operations,
  * `src/middleware/errorHandler.ts` — the centralized error formatting.

The SQL engine is modelled relationally: the `tasks` table is a `List Row`,
`SELECT ... WHERE id = ?` is `List.find?`, an `UPDATE ... WHERE id = @id`
statement maps the matching rows, and the `AFTER UPDATE` trigger refreshes
`updated_at` on every updated row.  `ORDER BY created_at DESC` is modelled by
an insertion sort (a permutation of the filtered rows).
-/

namespace TaskApi

/-- Task priority: `CHECK(priority IN ('low','medium','high'))` in the table
schema and `z.enum(['low', 'medium', 'high'])` in `validate.ts`. -/
inductive Priority where
  | low
  | medium
  | high
deriving DecidableEq, Repr

/-- The SQL text of a priority value, as interpolated into the count query by
string concatenation in `getAllTasks`. -/
def Priority.sqlText : Priority → String
  | .low => "low"
  | .medium => "medium"
  | .high => "high"

/-- One row of the `tasks` table.  `completed` is stored as an integer 0/1,
`description` is nullable, and the two timestamps are modelled as naturals. -/
@[ext]
structure Row where
  id : Nat
  title : String
  description : Option String
  completed : Nat
  priority : Priority
  created_at : Nat
  updated_at : Nat
deriving DecidableEq, Repr

/-- The validated body of a PATCH request (`patchTaskSchema`): every field is
optional; a present `description` may itself be null (`some none`). -/
structure PatchInput where
  title : Option String
  description : Option (Option String)
  completed : Option Bool
  priority : Option Priority
deriving DecidableEq, Repr

/-- The four mutable columns of the `tasks` table. -/
inductive Field where
  | title
  | description
  | completed
  | priority
deriving DecidableEq, Repr, Fintype

/-- The mutable-column allow-list used by `patchTask`:
`const allowedFields = ['title', 'description', 'completed', 'priority']`. -/
def allowedFields : List Field :=
  [Field.title, Field.description, Field.completed, Field.priority]

/-- Whether a field is present in the validated PATCH body.  This is the Hono
controller's test `key in updates && updates[key] !== undefined`: after zod
validation a key is in the object exactly when the option is `some`. -/
def PatchInput.present (u : PatchInput) : Field → Bool
  | .title => u.title.isSome
  | .description => u.description.isSome
  | .completed => u.completed.isSome
  | .priority => u.priority.isSome

/-- The Hono controller's
`allowedFields.filter(key => key in updates && updates[key] !== undefined)`:
the intersection of present fields with the allow-list, in allow-list order. -/
def fieldsToUpdate (u : PatchInput) : List Field :=
  allowedFields.filter u.present

/-- Effect of the single SET assignment `field = @field` on a row, with
`params[field]` drawn from the validated input; `completed` is coerced by
`updates[field] ? 1 : 0`.  The controllers only emit assignments for present
fields, so the `none` branches are never reached by them. -/
def applyField (u : PatchInput) (r : Row) : Field → Row
  | .title =>
    match u.title with
    | some t => { r with title := t }
    | none => r
  | .description =>
    match u.description with
    | some d => { r with description := d }
    | none => r
  | .completed =>
    match u.completed with
    | some b => { r with completed := if b then 1 else 0 }
    | none => r
  | .priority =>
    match u.priority with
    | some p => { r with priority := p }
    | none => r

/-- Effect of the generated SET clause: the assignments are applied left to
right in the order of the field list. -/
def applyFields (u : PatchInput) (fs : List Field) (r : Row) : Row :=
  fs.foldl (applyField u) r

/-- Boolean-to-integer coercion used for the `completed` column. -/
def coerceBool (b : Bool) : Nat := if b then 1 else 0

/-- Specification-level description of a patched row: every present field is
assigned its (coerced) new value, every absent field keeps its old value, and
`id`, `created_at`, `updated_at` are untouched by the SET clause. -/
def patchedRow (u : PatchInput) (r : Row) : Row :=
  { r with
    title := u.title.getD r.title
    description := u.description.getD r.description
    completed := (u.completed.map coerceBool).getD r.completed
    priority := u.priority.getD r.priority }

theorem applyField_id (u : PatchInput) (r : Row) (f : Field) :
    (applyField u r f).id = r.id := by
  cases f <;> (simp only [applyField]; split <;> rfl)

theorem applyField_created_at (u : PatchInput) (r : Row) (f : Field) :
    (applyField u r f).created_at = r.created_at := by
  cases f <;> (simp only [applyField]; split <;> rfl)

theorem applyField_updated_at (u : PatchInput) (r : Row) (f : Field) :
    (applyField u r f).updated_at = r.updated_at := by
  cases f <;> (simp only [applyField]; split <;> rfl)

theorem applyField_title_of_ne (u : PatchInput) (r : Row) {f : Field}
    (h : f ≠ Field.title) : (applyField u r f).title = r.title := by
  cases f
  · exact absurd rfl h
  · simp only [applyField]; split <;> rfl
  · simp only [applyField]; split <;> rfl
  · simp only [applyField]; split <;> rfl

theorem applyField_description_of_ne (u : PatchInput) (r : Row) {f : Field}
    (h : f ≠ Field.description) :
    (applyField u r f).description = r.description := by
  cases f
  · simp only [applyField]; split <;> rfl
  · exact absurd rfl h
  · simp only [applyField]; split <;> rfl
  · simp only [applyField]; split <;> rfl

theorem applyField_completed_of_ne (u : PatchInput) (r : Row) {f : Field}
    (h : f ≠ Field.completed) : (applyField u r f).completed = r.completed := by
  cases f
  · simp only [applyField]; split <;> rfl
  · simp only [applyField]; split <;> rfl
  · exact absurd rfl h
  · simp only [applyField]; split <;> rfl

theorem applyField_priority_of_ne (u : PatchInput) (r : Row) {f : Field}
    (h : f ≠ Field.priority) : (applyField u r f).priority = r.priority := by
  cases f
  · simp only [applyField]; split <;> rfl
  · simp only [applyField]; split <;> rfl
  · simp only [applyField]; split <;> rfl
  · exact absurd rfl h

theorem applyFields_id (u : PatchInput) (fs : List Field) (r : Row) :
    (applyFields u fs r).id = r.id := by
  induction fs generalizing r with
  | nil => rfl
  | cons f fs ih =>
    simp only [applyFields, List.foldl_cons] at *
    rw [ih, applyField_id]

theorem applyFields_created_at (u : PatchInput) (fs : List Field) (r : Row) :
    (applyFields u fs r).created_at = r.created_at := by
  induction fs generalizing r with
  | nil => rfl
  | cons f fs ih =>
    simp only [applyFields, List.foldl_cons] at *
    rw [ih, applyField_created_at]

theorem applyFields_updated_at (u : PatchInput) (fs : List Field) (r : Row) :
    (applyFields u fs r).updated_at = r.updated_at := by
  induction fs generalizing r with
  | nil => rfl
  | cons f fs ih =>
    simp only [applyFields, List.foldl_cons] at *
    rw [ih, applyField_updated_at]

theorem applyFields_title (u : PatchInput) (fs : List Field) (r : Row) :
    (applyFields u fs r).title =
      if Field.title ∈ fs then u.title.getD r.title else r.title := by
  induction fs generalizing r with
  | nil => simp [applyFields]
  | cons f fs ih =>
    simp only [applyFields, List.foldl_cons] at *
    by_cases hf : f = Field.title
    · subst hf
      rw [ih]
      have h1 : (applyField u r Field.title).title = u.title.getD r.title := by
        simp only [applyField]
        cases u.title <;> rfl
      have hmem : Field.title ∈ Field.title :: fs := List.mem_cons_self _ _
      rw [if_pos hmem]
      by_cases hm : Field.title ∈ fs
      · rw [if_pos hm, h1]
        cases u.title <;> rfl
      · rw [if_neg hm, h1]
    · rw [ih, applyField_title_of_ne u r hf]
      have hiff : (Field.title ∈ f :: fs) ↔ (Field.title ∈ fs) := by
        simp [List.mem_cons, Ne.symm hf]
      by_cases hm : Field.title ∈ fs
      · rw [if_pos hm, if_pos (hiff.mpr hm)]
      · rw [if_neg hm, if_neg (fun hc => hm (hiff.mp hc))]

theorem applyFields_description (u : PatchInput) (fs : List Field) (r : Row) :
    (applyFields u fs r).description =
      if Field.description ∈ fs then u.description.getD r.description
      else r.description := by
  induction fs generalizing r with
  | nil => simp [applyFields]
  | cons f fs ih =>
    simp only [applyFields, List.foldl_cons] at *
    by_cases hf : f = Field.description
    · subst hf
      rw [ih]
      have h1 : (applyField u r Field.description).description
          = u.description.getD r.description := by
        simp only [applyField]
        cases u.description <;> rfl
      have hmem : Field.description ∈ Field.description :: fs :=
        List.mem_cons_self _ _
      rw [if_pos hmem]
      by_cases hm : Field.description ∈ fs
      · rw [if_pos hm, h1]
        cases u.description <;> rfl
      · rw [if_neg hm, h1]
    · rw [ih, applyField_description_of_ne u r hf]
      have hiff : (Field.description ∈ f :: fs) ↔ (Field.description ∈ fs) := by
        simp [List.mem_cons, Ne.symm hf]
      by_cases hm : Field.description ∈ fs
      · rw [if_pos hm, if_pos (hiff.mpr hm)]
      · rw [if_neg hm, if_neg (fun hc => hm (hiff.mp hc))]

theorem applyFields_completed (u : PatchInput) (fs : List Field) (r : Row) :
    (applyFields u fs r).completed =
      if Field.completed ∈ fs then (u.completed.map coerceBool).getD r.completed
      else r.completed := by
  induction fs generalizing r with
  | nil => simp [applyFields]
  | cons f fs ih =>
    simp only [applyFields, List.foldl_cons] at *
    by_cases hf : f = Field.completed
    · subst hf
      rw [ih]
      have h1 : (applyField u r Field.completed).completed
          = (u.completed.map coerceBool).getD r.completed := by
        simp only [applyField]
        cases u.completed <;> rfl
      have hmem : Field.completed ∈ Field.completed :: fs :=
        List.mem_cons_self _ _
      rw [if_pos hmem]
      by_cases hm : Field.completed ∈ fs
      · rw [if_pos hm, h1]
        cases u.completed <;> rfl
      · rw [if_neg hm, h1]
    · rw [ih, applyField_completed_of_ne u r hf]
      have hiff : (Field.completed ∈ f :: fs) ↔ (Field.completed ∈ fs) := by
        simp [List.mem_cons, Ne.symm hf]
      by_cases hm : Field.completed ∈ fs
      · rw [if_pos hm, if_pos (hiff.mpr hm)]
      · rw [if_neg hm, if_neg (fun hc => hm (hiff.mp hc))]

theorem applyFields_priority (u : PatchInput) (fs : List Field) (r : Row) :
    (applyFields u fs r).priority =
      if Field.priority ∈ fs then u.priority.getD r.priority else r.priority := by
  induction fs generalizing r with
  | nil => simp [applyFields]
  | cons f fs ih =>
    simp only [applyFields, List.foldl_cons] at *
    by_cases hf : f = Field.priority
    · subst hf
      rw [ih]
      have h1 : (applyField u r Field.priority).priority
          = u.priority.getD r.priority := by
        simp only [applyField]
        cases u.priority <;> rfl
      have hmem : Field.priority ∈ Field.priority :: fs := List.mem_cons_self _ _
      rw [if_pos hmem]
      by_cases hm : Field.priority ∈ fs
      · rw [if_pos hm, h1]
        cases u.priority <;> rfl
      · rw [if_neg hm, h1]
    · rw [ih, applyField_priority_of_ne u r hf]
      have hiff : (Field.priority ∈ f :: fs) ↔ (Field.priority ∈ fs) := by
        simp [List.mem_cons, Ne.symm hf]
      by_cases hm : Field.priority ∈ fs
      · rw [if_pos hm, if_pos (hiff.mpr hm)]
      · rw [if_neg hm, if_neg (fun hc => hm (hiff.mp hc))]

/-- Order-independence of the generated SET clause: along any field list that
covers every present field, the result is the canonical patched row. -/
theorem applyFields_eq_patchedRow (u : PatchInput) (fs : List Field) (r : Row)
    (h : ∀ f, u.present f = true → f ∈ fs) :
    applyFields u fs r = patchedRow u r := by
  ext
  · rw [applyFields_id]; rfl
  · rw [applyFields_title]
    cases hu : u.title with
    | some t =>
      rw [if_pos (h Field.title (by simp [PatchInput.present, hu]))]
      simp [patchedRow, hu]
    | none =>
      by_cases hm : Field.title ∈ fs
      · rw [if_pos hm]; simp [patchedRow, hu]
      · rw [if_neg hm]; simp [patchedRow, hu]
  · rw [applyFields_description]
    cases hu : u.description with
    | some d =>
      rw [if_pos (h Field.description (by simp [PatchInput.present, hu]))]
      simp [patchedRow, hu]
    | none =>
      by_cases hm : Field.description ∈ fs
      · rw [if_pos hm]; simp [patchedRow, hu]
      · rw [if_neg hm]; simp [patchedRow, hu]
  · rw [applyFields_completed]
    cases hu : u.completed with
    | some b =>
      rw [if_pos (h Field.completed (by simp [PatchInput.present, hu]))]
      simp [patchedRow, hu]
    | none =>
      by_cases hm : Field.completed ∈ fs
      · rw [if_pos hm]; simp [patchedRow, hu]
      · rw [if_neg hm]; simp [patchedRow, hu]
  · rw [applyFields_priority]
    cases hu : u.priority with
    | some p =>
      rw [if_pos (h Field.priority (by simp [PatchInput.present, hu]))]
      simp [patchedRow, hu]
    | none =>
      by_cases hm : Field.priority ∈ fs
      · rw [if_pos hm]; simp [patchedRow, hu]
      · rw [if_neg hm]; simp [patchedRow, hu]
  · rw [applyFields_created_at]; rfl
  · rw [applyFields_updated_at]; rfl

/-- Shallow JSON values, used to state response-body shapes exactly. -/
inductive JVal where
  | null
  | str (s : String)
  | num (n : Nat)
  | obj (fields : List (String × JVal))
  | arr (elems : List JVal)

/-- Lookup of a key in an association list of JSON object fields. -/
def lookupPairs : List (String × JVal) → String → Option JVal
  | [], _ => none
  | p :: ps, k => if p.1 = k then some p.2 else lookupPairs ps k

/-- Lookup of a top-level field of a JSON value (none on non-objects). -/
def lookupField (v : JVal) (k : String) : Option JVal :=
  match v with
  | .obj fs => lookupPairs fs k
  | _ => none

/-- The names of the top-level fields of a JSON object, in order. -/
def topFields (v : JVal) : List String :=
  match v with
  | .obj fs => fs.map Prod.fst
  | _ => []

/-- JSON encoding of a nullable string column. -/
def jsonOfOptStr : Option String → JVal
  | none => .null
  | some s => .str s

/-- The JSON serialization of a task row, as returned by `SELECT *`. -/
def Row.toJson (r : Row) : JVal :=
  .obj [("id", .num r.id), ("title", .str r.title),
        ("description", jsonOfOptStr r.description),
        ("completed", .num r.completed),
        ("priority", .str r.priority.sqlText),
        ("created_at", .num r.created_at), ("updated_at", .num r.updated_at)]

/-- The body built by `createErrorResponse` in `errorHandler.ts`:
`error`, `message` and an ISO timestamp (here an opaque string). -/
def createErrorResponse (error message timestamp : String) : JVal :=
  .obj [("error", .str error), ("message", .str message),
        ("timestamp", .str timestamp)]

/-- The `notFoundHandler` for unmatched routes: 404 with the error envelope. -/
def notFoundHandler (method path timestamp : String) : Nat × JVal :=
  (404, .obj [("error", .str "Not Found"),
              ("message", .str ("Route " ++ method ++ " " ++ path
                ++ " not found")),
              ("timestamp", .str timestamp)])

/-- The classified faults reaching `errorHandler` (its four branches). -/
inductive ErrKind where
  | httpError (statusCode : Nat) (message : String)
  | sqliteError (message : String)
  | jsonSyntaxError
  | other (message : String)

/-- The centralized `errorHandler`: every branch emits `createErrorResponse`;
detail of 500 messages is gated on the development environment. -/
def errorHandler (e : ErrKind) (isDev : Bool) (timestamp : String) :
    Nat × JVal :=
  match e with
  | .httpError status msg => (status, createErrorResponse "HttpError" msg timestamp)
  | .sqliteError msg =>
    (500, createErrorResponse "Database Error"
      (if isDev then msg else "An internal database error occurred") timestamp)
  | .jsonSyntaxError =>
    (400, createErrorResponse "Bad Request" "Invalid JSON in request body"
      timestamp)
  | .other msg =>
    (500, createErrorResponse "Internal Server Error"
      (if isDev then msg else "An unexpected error occurred") timestamp)

/-- The body built by the validation middleware on a failed parse:
`error: 'Validation Error'`, a fixed message, the itemized `details`, and a
timestamp.  A detail is a field name paired with a message. -/
def validationErrorResponse (details : List (String × String))
    (timestamp : String) : JVal :=
  .obj [("error", .str "Validation Error"),
        ("message", .str "Request validation failed"),
        ("details", .arr (details.map fun d =>
          .obj [("field", .str d.1), ("message", .str d.2)])),
        ("timestamp", .str timestamp)]

/-- Result of a controller call: HTTP status, response body, and the table
contents afterwards. -/
structure CtrlResult where
  status : Nat
  body : JVal
  rows : List Row

/-- The body of the Hono controllers' domain 404: the error object is passed
as the `data` payload of `c.json<ApiResponse<...>>`. -/
def honoNotFoundBody (id : Nat) : JVal :=
  .obj [("data", .obj [("error", .str "Not Found"),
    ("message", .str ("Task with id " ++ toString id ++ " not found"))])]

/-- An `UPDATE tasks SET ... WHERE id = @id` statement followed by the
`update_task_timestamp` trigger, which refreshes `updated_at` on the updated
row (`UPDATE tasks SET updated_at = datetime('now') WHERE id = NEW.id`). -/
def runUpdate (rows : List Row) (id : Nat) (g : Row → Row) (now : Nat) :
    List Row :=
  rows.map fun r => if r.id == id then { g r with updated_at := now } else r

/-- Hono `getTaskById`: single-row lookup; a missing row yields a 404 whose
body nests the error object under `data`. -/
def getTaskById (rows : List Row) (id : Nat) : CtrlResult :=
  match rows.find? (fun r => r.id == id) with
  | none => { status := 404, body := honoNotFoundBody id, rows := rows }
  | some t => { status := 200, body := .obj [("data", t.toJson)], rows := rows }

/-- The validated body of a POST request (`createTaskSchema`): `title`
required, `description` optional/nullable (absent and null both store NULL),
`priority` defaulted to medium by the schema. -/
structure CreateInput where
  title : String
  description : Option String
  priority : Priority
deriving DecidableEq, Repr

/-- Hono `createTask`: inserts a row (storage assigns the id — here the fresh
id is a parameter — and both timestamps), then re-reads it by new id. -/
def createTask (rows : List Row) (freshId : Nat) (input : CreateInput)
    (now : Nat) : CtrlResult :=
  let newTask : Row :=
    { id := freshId, title := input.title, description := input.description,
      completed := 0, priority := input.priority,
      created_at := now, updated_at := now }
  { status := 201,
    body := .obj [("message", .str "Task created successfully"),
                  ("data", newTask.toJson)],
    rows := rows ++ [newTask] }

/-- The validated body of a PUT request (`updateTaskSchema`): all four fields
required; `description` must be present but may be null (`none`). -/
structure UpdateInput where
  title : String
  description : Option String
  completed : Bool
  priority : Priority
deriving DecidableEq, Repr

/-- Hono `updateTask`: 404 if the row does not exist, otherwise one UPDATE
overwriting all four mutable columns (`description ?? null`, boolean coerced
to 0/1), then a re-read of the row. -/
def updateTask (rows : List Row) (id : Nat) (input : UpdateInput) (now : Nat) :
    CtrlResult :=
  match rows.find? (fun r => r.id == id) with
  | none => { status := 404, body := honoNotFoundBody id, rows := rows }
  | some _ =>
    let g : Row → Row := fun r =>
      { r with title := input.title,
               description := input.description,
               completed := if input.completed then 1 else 0,
               priority := input.priority }
    let rows' := runUpdate rows id g now
    let updatedTask := rows'.find? (fun r => r.id == id)
    { status := 200,
      body := .obj [("message", .str "Task updated successfully"),
                    ("data", (updatedTask.map Row.toJson).getD .null)],
      rows := rows' }

/-- Hono `patchTask`: 404 if the row does not exist; 400 when the computed
field intersection is empty; otherwise the dynamically built UPDATE touching
only the present fields, then a re-read of the row. -/
def patchTask (rows : List Row) (id : Nat) (u : PatchInput) (now : Nat) :
    CtrlResult :=
  match rows.find? (fun r => r.id == id) with
  | none => { status := 404, body := honoNotFoundBody id, rows := rows }
  | some _ =>
    if (fieldsToUpdate u).length = 0 then
      { status := 400,
        body := .obj [("data", .obj [("error", .str "Bad Request"),
          ("message", .str "No valid fields to update")])],
        rows := rows }
    else
      let rows' := runUpdate rows id (applyFields u (fieldsToUpdate u)) now
      let updatedTask := rows'.find? (fun r => r.id == id)
      { status := 200,
        body := .obj [("message", .str "Task updated successfully"),
                      ("data", (updatedTask.map Row.toJson).getD .null)],
        rows := rows' }

/-- Hono `deleteTask`: 404 if the row does not exist, otherwise DELETE and an
empty 204 response. -/
def deleteTask (rows : List Row) (id : Nat) : CtrlResult :=
  match rows.find? (fun r => r.id == id) with
  | none => { status := 404, body := honoNotFoundBody id, rows := rows }
  | some _ =>
    { status := 204, body := .null,
      rows := rows.filter fun r => ¬(r.id == id) }

/-- Express `patchTask` (`taskController.js`): the update set is
`Object.keys(updates).filter(key => allowedFields.includes(key))`, so the SET
clause follows the body's key order; `keys` is the key list of the validated
body.  Error bodies are emitted at top level in the Express variant. -/
def patchTaskExpress (rows : List Row) (id : Nat) (keys : List Field)
    (u : PatchInput) (now : Nat) : CtrlResult :=
  match rows.find? (fun r => r.id == id) with
  | none =>
    { status := 404,
      body := .obj [("error", .str "Not Found"),
        ("message", .str ("Task with id " ++ toString id ++ " not found"))],
      rows := rows }
  | some _ =>
    let fs := keys.filter (fun k => allowedFields.contains k)
    if fs.length = 0 then
      { status := 400,
        body := .obj [("error", .str "Bad Request"),
                      ("message", .str "No valid fields to update")],
        rows := rows }
    else
      let rows' := runUpdate rows id (applyFields u fs) now
      let updatedTask := rows'.find? (fun r => r.id == id)
      { status := 200,
        body := .obj [("message", .str "Task updated successfully"),
                      ("data", (updatedTask.map Row.toJson).getD .null)],
        rows := rows' }

/-- The validated list query (`listQuerySchema`): `completed` is one of the
literal strings "true"/"false" when present, `priority` an enum value,
`limit` in [1,100] and `offset` ≥ 0 (bounds enforced by the schema). -/
structure ListQuery where
  completed : Option String
  priority : Option Priority
  limit : Option Nat
  offset : Option Nat
deriving DecidableEq, Repr

/-- A parameterized WHERE condition of the page query in `getAllTasks`. -/
inductive PageCond where
  | completedEq (v : Nat)
  | priorityEq (p : Priority)
deriving DecidableEq, Repr

/-- Relational semantics of a page-query condition. -/
def PageCond.holds (r : Row) : PageCond → Bool
  | .completedEq v => r.completed == v
  | .priorityEq p => r.priority == p

/-- A WHERE condition of the count query in `getAllTasks`, which is built by
string concatenation: the priority is interpolated as a quoted SQL text
literal rather than bound as a parameter. -/
inductive CountCond where
  | completedEq (v : Nat)
  | priorityEqLit (s : String)
deriving DecidableEq, Repr

/-- Relational semantics of a count-query condition: the interpolated literal
is compared against the SQL text of the row's priority. -/
def CountCond.holds (r : Row) : CountCond → Bool
  | .completedEq v => r.completed == v
  | .priorityEqLit s => r.priority.sqlText == s

/-- The WHERE conditions of the page query: starting from `WHERE 1=1`,
`completed !== undefined` appends `completed = @completed` with the parameter
`completed === 'true' ? 1 : 0`, and a truthy `priority` (validated priorities
are nonempty strings) appends `priority = @priority`. -/
def pageConds (q : ListQuery) : List PageCond :=
  (match q.completed with
   | some s => [PageCond.completedEq (if s == "true" then 1 else 0)]
   | none => []) ++
  (match q.priority with
   | some p => [PageCond.priorityEq p]
   | none => [])

/-- The WHERE conditions of the count query, concatenated as text:
`' AND completed = ' + (completed === 'true' ? 1 : 0)` and
`` ` AND priority = '${priority}'` ``. -/
def countConds (q : ListQuery) : List CountCond :=
  (match q.completed with
   | some s => [CountCond.completedEq (if s == "true" then 1 else 0)]
   | none => []) ++
  (match q.priority with
   | some p => [CountCond.priorityEqLit p.sqlText]
   | none => [])

/-- The page query's WHERE predicate on a row. -/
def pagePred (q : ListQuery) (r : Row) : Bool :=
  (pageConds q).all (PageCond.holds r)

/-- The count query's WHERE predicate on a row. -/
def countPred (q : ListQuery) (r : Row) : Bool :=
  (countConds q).all (CountCond.holds r)

/-- Model of `ORDER BY created_at DESC`: a sort of the selected rows by
descending creation time (a permutation of its input). -/
def sortByCreatedDesc (rows : List Row) : List Row :=
  rows.insertionSort fun a b => b.created_at ≤ a.created_at

/-- Result of the list endpoint: the page of rows and the pagination
metadata `total`, `limit`, `offset`, `hasMore`. -/
structure ListResult where
  status : Nat
  data : List Row
  total : Nat
  limit : Nat
  offset : Nat
  hasMore : Bool
deriving DecidableEq, Repr

/-- Hono `getAllTasks`: filters by the page predicate, orders by creation
time descending, applies `LIMIT @limit OFFSET @offset` with defaults 50/0,
separately counts the rows matching the concatenated count query, and reports
`hasMore = offset + tasks.length < total`. -/
def getAllTasks (rows : List Row) (q : ListQuery) : ListResult :=
  let limit := q.limit.getD 50
  let offset := q.offset.getD 0
  let tasks :=
    (((sortByCreatedDesc (rows.filter (pagePred q))).drop offset).take limit)
  let total := (rows.filter (countPred q)).length
  { status := 200, data := tasks, total := total, limit := limit,
    offset := offset, hasMore := decide (offset + tasks.length < total) }

/-- The list request for page `k` of size `L`: offset `k * L`, no filters. -/
def listPage (rows : List Row) (L k : Nat) : ListResult :=
  getAllTasks rows
    { completed := none, priority := none, limit := some L,
      offset := some (k * L) }

/-- The data of the consecutive pages `0, 1, ..., n-1` of size `L`. -/
def pages (rows : List Row) (L n : Nat) : List (List Row) :=
  (List.range n).map fun k => (listPage rows L k).data

/-- Removal of leading and trailing whitespace from a character list, the
semantics of JavaScript `String.prototype.trim` used by zod's `.trim()`. -/
def trimChars (cs : List Char) : List Char :=
  ((cs.dropWhile Char.isWhitespace).reverse.dropWhile Char.isWhitespace).reverse

/-- String-level trim over the code-point list of the string. -/
def strTrim (s : String) : String := String.mk (trimChars s.data)

/-- A zod string check, in the order they are declared on the schema: `trim`
replaces the running value, `min`/`max` test the length of the running
value. -/
inductive ZCheck where
  | trimCheck
  | minLen (n : Nat)
  | maxLen (n : Nat)
deriving DecidableEq, Repr

/-- Runs a list of zod string checks in declaration order, returning the
transformed value on success and nothing on a validation failure. -/
def runChecks : List ZCheck → String → Option String
  | [], s => some s
  | ZCheck.trimCheck :: cs, s => runChecks cs (strTrim s)
  | ZCheck.minLen n :: cs, s => if n ≤ s.length then runChecks cs s else none
  | ZCheck.maxLen n :: cs, s => if s.length ≤ n then runChecks cs s else none

/-- The check chain of the `title` field of `createTaskSchema`:
`z.string().trim().min(1).max(200)`. -/
def createTitleChecks : List ZCheck :=
  [ZCheck.trimCheck, ZCheck.minLen 1, ZCheck.maxLen 200]

/-- Whether create-body validation accepts a given title string. -/
def titleAccepted (s : String) : Bool :=
  (runChecks createTitleChecks s).isSome


theorem find?_map_of_pred_eq (g : Row → Row) (p : Row → Bool)
    (rows : List Row) (h : ∀ x, p (g x) = p x) :
    (rows.map g).find? p = (rows.find? p).map g := by
  rw [List.find?_map]
  have hpg : (p ∘ g) = p := funext h
  rw [hpg]

theorem runUpdate_pred_eq (g : Row → Row) (id : Nat) (now : Nat)
    (hg : ∀ x, (g x).id = x.id) (x : Row) :
    (((fun r : Row => if r.id == id then { g r with updated_at := now } else r)
      x).id == id) = (x.id == id) := by
  show ((if x.id == id then { g x with updated_at := now } else x).id == id)
    = (x.id == id)
  by_cases hx : (x.id == id) = true
  · rw [if_pos hx]
    show ((g x).id == id) = (x.id == id)
    rw [hg x]
  · rw [if_neg hx]

theorem runUpdate_find? (rows : List Row) (id : Nat) (g : Row → Row)
    (now : Nat) (r : Row) (hg : ∀ x, (g x).id = x.id)
    (hfind : rows.find? (fun x => x.id == id) = some r) :
    (runUpdate rows id g now).find? (fun x => x.id == id)
      = some { g r with updated_at := now } := by
  unfold runUpdate
  rw [find?_map_of_pred_eq _ _ _ (runUpdate_pred_eq g id now hg), hfind]
  have hp := List.find?_some hfind
  show some (if r.id == id then { g r with updated_at := now } else r) = _
  rw [if_pos hp]

theorem runUpdate_created_at (rows : List Row) (id : Nat) (g : Row → Row)
    (now : Nat) (hg : ∀ x, (g x).created_at = x.created_at) :
    (runUpdate rows id g now).map Row.created_at
      = rows.map Row.created_at := by
  unfold runUpdate
  rw [List.map_map]
  apply List.map_congr_left
  intro x _
  show Row.created_at (if x.id == id then { g x with updated_at := now } else x)
    = x.created_at
  by_cases hx : (x.id == id) = true
  · rw [if_pos hx]
    exact hg x
  · rw [if_neg hx]

theorem runUpdate_mem_of_other (rows : List Row) (id : Nat) (g : Row → Row)
    (now : Nat) (x : Row) (hx : x ∈ rows) (hne : (x.id == id) = false) :
    x ∈ runUpdate rows id g now := by
  unfold runUpdate
  refine List.mem_map.mpr ⟨x, hx, ?_⟩
  show (if x.id == id then { g x with updated_at := now } else x) = x
  rw [if_neg (by simp [hne])]

theorem runUpdate_updated_at (rows : List Row) (id : Nat) (g : Row → Row)
    (now : Nat) (r' : Row) (hmem : r' ∈ runUpdate rows id g now)
    (hid : (r'.id == id) = true) : r'.updated_at = now := by
  unfold runUpdate at hmem
  obtain ⟨x, _, hx⟩ := List.mem_map.mp hmem
  by_cases hxid : (x.id == id) = true
  · rw [if_pos hxid] at hx
    rw [← hx]
  · rw [if_neg hxid] at hx
    rw [← hx] at hid
    exact absurd hid hxid

theorem runUpdate_length (rows : List Row) (id : Nat) (g : Row → Row)
    (now : Nat) : (runUpdate rows id g now).length = rows.length := by
  unfold runUpdate
  exact List.length_map _ _

theorem mem_fieldsToUpdate (u : PatchInput) (f : Field) :
    f ∈ fieldsToUpdate u ↔ u.present f = true := by
  unfold fieldsToUpdate allowedFields
  cases f <;> simp [List.mem_filter]

theorem patchTask_found_spec (rows : List Row) (id : Nat) (u : PatchInput)
    (now : Nat) (r : Row)
    (hfind : rows.find? (fun x => x.id == id) = some r)
    (hne : ¬ (fieldsToUpdate u).length = 0) :
    (patchTask rows id u now).status = 200 ∧
    (patchTask rows id u now).rows
      = runUpdate rows id (applyFields u (fieldsToUpdate u)) now ∧
    (patchTask rows id u now).rows.find? (fun x => x.id == id)
      = some { patchedRow u r with updated_at := now } ∧
    lookupField (patchTask rows id u now).body "message"
      = some (.str "Task updated successfully") ∧
    lookupField (patchTask rows id u now).body "data"
      = some ({ patchedRow u r with updated_at := now }).toJson := by
  have hg : applyFields u (fieldsToUpdate u) r = patchedRow u r :=
    applyFields_eq_patchedRow u (fieldsToUpdate u) r
      (fun f hf => (mem_fieldsToUpdate u f).mpr hf)
  have hfind' : (runUpdate rows id (applyFields u (fieldsToUpdate u)) now).find?
      (fun x => x.id == id) = some { patchedRow u r with updated_at := now } := by
    rw [runUpdate_find? rows id _ now r (fun x => applyFields_id u _ x) hfind, hg]
  have hres : patchTask rows id u now =
      { status := 200,
        body := .obj [("message", .str "Task updated successfully"),
          ("data", ((((runUpdate rows id (applyFields u (fieldsToUpdate u)) now).find?
            (fun x => x.id == id)).map Row.toJson).getD .null))],
        rows := runUpdate rows id (applyFields u (fieldsToUpdate u)) now } := by
    simp only [patchTask, hfind, if_neg hne]
  refine ⟨by rw [hres], by rw [hres], by rw [hres]; exact hfind', ?_, ?_⟩
  · rw [hres]
    rfl
  · rw [hres]
    show lookupPairs _ "data" = _
    rw [show lookupPairs [("message", JVal.str "Task updated successfully"),
      ("data", ((((runUpdate rows id (applyFields u (fieldsToUpdate u)) now).find?
        (fun x => x.id == id)).map Row.toJson).getD .null))] "data"
      = ((((runUpdate rows id (applyFields u (fieldsToUpdate u)) now).find?
        (fun x => x.id == id)).map Row.toJson).getD .null) from rfl]
    rw [hfind']
    rfl

theorem flatten_chunks {α : Type} (L : Nat) :
    ∀ (n : Nat) (l : List α),
    ((List.range n).map fun k => (l.drop (k * L)).take L).flatten
      = l.take (n * L) := by
  intro n
  induction n with
  | zero => intro l; simp
  | succ n ih =>
    intro l
    rw [List.range_succ, List.map_append, List.flatten_append, ih,
      Nat.succ_mul, List.take_add]
    simp

/-- The list query with no filters, page size `L`, page index `k`. -/
def pageQuery (L k : Nat) : ListQuery :=
  { completed := none, priority := none, limit := some L,
    offset := some (k * L) }

theorem pagePred_none (L k : Nat) (r : Row) :
    pagePred (pageQuery L k) r = true := rfl

theorem countPred_none (L k : Nat) (r : Row) :
    countPred (pageQuery L k) r = true := rfl

theorem listPage_eq_pageQuery (rows : List Row) (L k : Nat) :
    listPage rows L k = getAllTasks rows (pageQuery L k) := rfl

theorem sortByCreatedDesc_perm (rows : List Row) :
    (sortByCreatedDesc rows).Perm rows :=
  List.perm_insertionSort _ rows

theorem listPage_data (rows : List Row) (L k : Nat) :
    (listPage rows L k).data
      = ((sortByCreatedDesc rows).drop (k * L)).take L := by
  rw [listPage_eq_pageQuery]
  unfold getAllTasks
  rw [List.filter_eq_self.mpr fun a _ => pagePred_none L k a]
  rfl

theorem listPage_total (rows : List Row) (L k : Nat) :
    (listPage rows L k).total = rows.length := by
  rw [listPage_eq_pageQuery]
  unfold getAllTasks
  show (rows.filter (countPred (pageQuery L k))).length = rows.length
  rw [List.filter_eq_self.mpr fun a _ => countPred_none L k a]

theorem listPage_hasMore (rows : List Row) (L k : Nat) :
    (listPage rows L k).hasMore
      = decide (k * L + (((sortByCreatedDesc rows).drop (k * L)).take L).length
          < rows.length) := by
  rw [listPage_eq_pageQuery]
  unfold getAllTasks
  rw [List.filter_eq_self.mpr fun a _ => pagePred_none L k a,
    List.filter_eq_self.mpr fun a _ => countPred_none L k a]
  rfl

theorem pages_flatten (rows : List Row) (L n : Nat)
    (hcover : rows.length ≤ n * L) :
    (pages rows L n).flatten = sortByCreatedDesc rows := by
  unfold pages
  have hdata : ((List.range n).map fun k => (listPage rows L k).data)
      = (List.range n).map fun k =>
        ((sortByCreatedDesc rows).drop (k * L)).take L :=
    List.map_congr_left fun k _ => listPage_data rows L k
  rw [hdata, flatten_chunks]
  exact List.take_of_length_le
    (by rw [(sortByCreatedDesc_perm rows).length_eq]; exact hcover)

theorem pages_pairwise_disjoint (rows : List Row) (L n : Nat)
    (hids : (rows.map Row.id).Nodup) (hcover : rows.length ≤ n * L) :
    List.Pairwise List.Disjoint (pages rows L n) := by
  have hnd : rows.Nodup := List.Nodup.of_map Row.id hids
  have hS : (sortByCreatedDesc rows).Nodup :=
    ((sortByCreatedDesc_perm rows).nodup_iff).mpr hnd
  have hflat : (pages rows L n).flatten.Nodup := by
    rw [pages_flatten rows L n hcover]
    exact hS
  exact (List.nodup_flatten.mp hflat).2

theorem listPage_hasMore_iff (rows : List Row) (L n k : Nat)
    (hcover : rows.length ≤ n * L) (hlast : (n - 1) * L < rows.length)
    (hk : k < n) :
    ((listPage rows L k).hasMore = true ↔ k < n - 1) := by
  rw [listPage_hasMore, List.length_take, List.length_drop,
    (sortByCreatedDesc_perm rows).length_eq, decide_eq_true_eq]
  obtain ⟨a, ha⟩ : ∃ a, a = k * L := ⟨_, rfl⟩
  obtain ⟨b, hb⟩ : ∃ b, b = (n - 1) * L := ⟨_, rfl⟩
  rw [← ha]
  rw [← hb] at hlast
  have hnL : n * L = b + L := by
    rw [hb]
    cases n with
    | zero => exact absurd hk (Nat.not_lt_zero k)
    | succ m => simp [Nat.succ_sub_one, Nat.succ_mul]
  rw [hnL] at hcover
  by_cases hc : k < n - 1
  · have hab : a + L ≤ b := by
      rw [ha, hb]
      have h1 : k * L + L = (k + 1) * L := (Nat.succ_mul k L).symm
      rw [h1]
      exact Nat.mul_le_mul_right L hc
    simp only [hc, iff_true]
    omega
  · have heq : a = b := by
      have hkn : k = n - 1 := by omega
      rw [ha, hb, hkn]
    simp only [hc, iff_false]
    omega

/-- A mutating CRUD call against the tasks table, as dispatched by routes. -/
inductive Op where
  | create (freshId : Nat) (input : CreateInput)
  | update (id : Nat) (input : UpdateInput)
  | patch (id : Nat) (u : PatchInput)
  | delete (id : Nat)

/-- The table contents after one controller call executed at time `now`. -/
def applyOp (rows : List Row) (op : Op) (now : Nat) : List Row :=
  match op with
  | .create freshId input => (createTask rows freshId input now).rows
  | .update id input => (updateTask rows id input now).rows
  | .patch id u => (patchTask rows id u now).rows
  | .delete id => (deleteTask rows id).rows

/-- The timestamp invariant: `updated_at ≥ created_at` on every row. -/
def Inv (rows : List Row) : Prop :=
  ∀ r ∈ rows, r.created_at ≤ r.updated_at

theorem runUpdate_inv (rows : List Row) (id : Nat) (g : Row → Row) (now : Nat)
    (hg : ∀ x, (g x).created_at = x.created_at)
    (hInv : Inv rows) (hnow : ∀ r ∈ rows, r.created_at ≤ now) :
    Inv (runUpdate rows id g now) := by
  intro r' hr'
  unfold runUpdate at hr'
  obtain ⟨x, hx, hfx⟩ := List.mem_map.mp hr'
  by_cases hxid : (x.id == id) = true
  · rw [if_pos hxid] at hfx
    rw [← hfx]
    show (g x).created_at ≤ now
    rw [hg x]
    exact hnow x hx
  · rw [if_neg hxid] at hfx
    rw [← hfx]
    exact hInv x hx

theorem applyOp_inv (rows : List Row) (op : Op) (now : Nat)
    (hInv : Inv rows) (hnow : ∀ r ∈ rows, r.created_at ≤ now) :
    Inv (applyOp rows op now) := by
  cases op with
  | create freshId input =>
    intro r' hr'
    show r'.created_at ≤ r'.updated_at
    rcases List.mem_append.mp hr' with hold | hnew
    · exact hInv r' hold
    · rw [List.mem_singleton.mp hnew]
  | update id input =>
    show Inv (updateTask rows id input now).rows
    cases hf : rows.find? (fun r => r.id == id) with
    | none => simp only [updateTask, hf]; exact hInv
    | some r =>
      simp only [updateTask, hf]
      exact runUpdate_inv rows id _ now (fun x => rfl) hInv hnow
  | patch id u =>
    show Inv (patchTask rows id u now).rows
    cases hf : rows.find? (fun r => r.id == id) with
    | none => simp only [patchTask, hf]; exact hInv
    | some r =>
      by_cases hz : (fieldsToUpdate u).length = 0
      · simp only [patchTask, hf, if_pos hz]
        exact hInv
      · simp only [patchTask, hf, if_neg hz]
        exact runUpdate_inv rows id _ now
          (fun x => applyFields_created_at u _ x) hInv hnow
  | delete id =>
    show Inv (deleteTask rows id).rows
    cases hf : rows.find? (fun r => r.id == id) with
    | none => simp only [deleteTask, hf]; exact hInv
    | some r =>
      simp only [deleteTask, hf]
      intro r' hr'
      exact hInv r' (List.mem_of_mem_filter hr')

theorem updateTask_keeps_created_at (rows : List Row) (id : Nat)
    (input : UpdateInput) (now : Nat) :
    (updateTask rows id input now).rows.map Row.created_at
      = rows.map Row.created_at := by
  cases hf : rows.find? (fun r => r.id == id) with
  | none => simp only [updateTask, hf]
  | some r =>
    simp only [updateTask, hf]
    exact runUpdate_created_at rows id _ now (fun x => rfl)

theorem patchTask_keeps_created_at (rows : List Row) (id : Nat)
    (u : PatchInput) (now : Nat) :
    (patchTask rows id u now).rows.map Row.created_at
      = rows.map Row.created_at := by
  cases hf : rows.find? (fun r => r.id == id) with
  | none => simp only [patchTask, hf]
  | some r =>
    by_cases hz : (fieldsToUpdate u).length = 0
    · simp only [patchTask, hf, if_pos hz]
    · simp only [patchTask, hf, if_neg hz]
      exact runUpdate_created_at rows id _ now
        (fun x => applyFields_created_at u _ x)

theorem updateTask_refreshes (rows : List Row) (id : Nat)
    (input : UpdateInput) (now : Nat) (r' : Row)
    (hmem : r' ∈ (updateTask rows id input now).rows)
    (hid : (r'.id == id) = true) : r'.updated_at = now := by
  cases hf : rows.find? (fun r => r.id == id) with
  | none =>
    simp only [updateTask, hf] at hmem
    have := List.find?_eq_none.mp hf r' hmem
    exact absurd hid this
  | some r =>
    simp only [updateTask, hf] at hmem
    exact runUpdate_updated_at rows id _ now r' hmem hid

theorem patchTask_refreshes (rows : List Row) (id : Nat)
    (u : PatchInput) (now : Nat) (r' : Row)
    (hne : ¬ (fieldsToUpdate u).length = 0)
    (hmem : r' ∈ (patchTask rows id u now).rows)
    (hid : (r'.id == id) = true) : r'.updated_at = now := by
  cases hf : rows.find? (fun r => r.id == id) with
  | none =>
    simp only [patchTask, hf] at hmem
    have := List.find?_eq_none.mp hf r' hmem
    exact absurd hid this
  | some r =>
    simp only [patchTask, hf, if_neg hne] at hmem
    exact runUpdate_updated_at rows id _ now r' hmem hid

theorem sqlText_beq (a p : Priority) :
    (a.sqlText == p.sqlText) = (a == p) := by
  cases a <;> cases p <;> rfl

theorem contains_allowedFields (f : Field) :
    allowedFields.contains f = true := by
  cases f <;> rfl

/-- A fixed sample table used by the witness instances below. -/
def sampleRow (i : Nat) : Row :=
  { id := i, title := "task", description := none, completed := 0,
    priority := Priority.medium, created_at := i, updated_at := i }

/-- Three sample rows with distinct ids. -/
def sampleRows : List Row := [sampleRow 1, sampleRow 2, sampleRow 3]

/-- The empty PATCH body (and the image under validation of a body made only
of unknown fields, which zod strips). -/
def emptyPatch : PatchInput :=
  { title := none, description := none, completed := none, priority := none }

/-- A PATCH body containing only `completed: false`. -/
def patchCompletedFalse : PatchInput :=
  { title := none, description := none, completed := some false,
    priority := none }

/-- A PATCH body containing only `description: null`. -/
def patchDescriptionNull : PatchInput :=
  { title := none, description := some none, completed := none,
    priority := none }

set_option maxRecDepth 8192 in
/-- C7: create-body validation accepts a title exactly when its trimmed
length is between 1 and 200 inclusive; a 200-character title (no surrounding
whitespace) is accepted and a 201-character one is rejected. -/
theorem title_validation_boundary :
    (∀ s : String, titleAccepted s = true
      ↔ (1 ≤ (strTrim s).length ∧ (strTrim s).length ≤ 200)) ∧
    titleAccepted (String.mk (List.replicate 200 'a')) = true ∧
    titleAccepted (String.mk (List.replicate 201 'a')) = false := by
  have hrun : ∀ s : String, titleAccepted s
      = (if 1 ≤ (strTrim s).length then
          (if (strTrim s).length ≤ 200 then some (strTrim s) else none)
         else none).isSome := fun s => rfl
  refine ⟨?_, ?_, ?_⟩
  · intro s
    rw [hrun]
    by_cases h1 : 1 ≤ (strTrim s).length
    · by_cases h2 : (strTrim s).length ≤ 200
      · rw [if_pos h1, if_pos h2]
        simp [h1, h2]
      · rw [if_pos h1, if_neg h2]
        simp [h2]
    · rw [if_neg h1]
      simp [h1]
  · decide
  · decide

/-- C8: the string-concatenated count query selects exactly the rows selected
by the page query's parameterized WHERE predicate — the two filter predicates
agree on every row, so the count equals the size of the filtered set, and it
ignores `limit` and `offset`. -/
theorem count_page_filter_equiv (q : ListQuery) (rows : List Row) (r : Row)
    (lim off : Option Nat) :
    countPred q r = pagePred q r ∧
    rows.filter (countPred q) = rows.filter (pagePred q) ∧
    (getAllTasks rows q).total = (rows.filter (pagePred q)).length ∧
    (getAllTasks rows { q with limit := lim, offset := off }).total
      = (getAllTasks rows q).total := by
  have hpred : ∀ x : Row, countPred q x = pagePred q x := by
    intro x
    unfold countPred pagePred countConds pageConds
    cases q.completed <;> cases q.priority <;>
      simp [CountCond.holds, PageCond.holds, sqlText_beq]
  refine ⟨hpred r, List.filter_congr fun x _ => hpred x, ?_, rfl⟩
  show (rows.filter (countPred q)).length = _
  rw [List.filter_congr fun x _ => hpred x]

/-- C9: for every validated PATCH input and pre-state, the Express controller
(SET clause in body key order) and the Hono controller (SET clause in
allow-list order) return the same status and leave the table in the same
post-state. -/
theorem patch_express_hono_equiv (rows : List Row) (id : Nat)
    (keys : List Field) (u : PatchInput) (now : Nat)
    (hkeys : ∀ f, f ∈ keys ↔ u.present f = true) :
    (patchTaskExpress rows id keys u now).rows
      = (patchTask rows id u now).rows ∧
    (patchTaskExpress rows id keys u now).status
      = (patchTask rows id u now).status := by
  cases hf : rows.find? (fun r => r.id == id) with
  | none =>
    simp only [patchTaskExpress, patchTask, hf]
    exact ⟨trivial, trivial⟩
  | some r =>
    have hfe : keys.filter (fun k => allowedFields.contains k) = keys :=
      List.filter_eq_self.mpr fun a _ => contains_allowedFields a
    have hemp : keys.length = 0 ↔ (fieldsToUpdate u).length = 0 := by
      rw [List.length_eq_zero, List.length_eq_zero]
      constructor
      · intro h
        refine List.filter_eq_nil_iff.mpr fun f _ hp => ?_
        have : f ∈ keys := (hkeys f).mpr hp
        rw [h] at this
        exact absurd this (List.not_mem_nil f)
      · intro h
        refine List.eq_nil_iff_forall_not_mem.mpr fun f hfk => ?_
        have hp : u.present f = true := (hkeys f).mp hfk
        have : f ∈ fieldsToUpdate u := (mem_fieldsToUpdate u f).mpr hp
        rw [h] at this
        exact absurd this (List.not_mem_nil f)
    by_cases hz : (fieldsToUpdate u).length = 0
    · have hkz : keys.length = 0 := hemp.mpr hz
      simp only [patchTaskExpress, patchTask, hf, hfe, if_pos hz, if_pos hkz]
      exact ⟨trivial, trivial⟩
    · have hkz : ¬ keys.length = 0 := fun h => hz (hemp.mp h)
      have hfun : applyFields u keys = applyFields u (fieldsToUpdate u) :=
        funext fun x => by
          rw [applyFields_eq_patchedRow u keys x fun f hp => (hkeys f).mpr hp,
            applyFields_eq_patchedRow u (fieldsToUpdate u) x
              fun f hp => (mem_fieldsToUpdate u f).mpr hp]
      simp only [patchTaskExpress, patchTask, hf, hfe, if_neg hz, if_neg hkz,
        hfun]
      exact ⟨trivial, trivial⟩

/-- C1 counterexample: a GET on a never-existing id returns 404, but the body
is not the error envelope — its only top-level field is `data` (the error
object is nested inside it) and there is no top-level `error`, `message` or
`timestamp` field. -/
theorem getTaskById_missing_no_top_level_error :
    (getTaskById [] 1).status = 404 ∧
    topFields (getTaskById [] 1).body = ["data"] ∧
    lookupField (getTaskById [] 1).body "error" = none ∧
    lookupField (getTaskById [] 1).body "message" = none ∧
    lookupField (getTaskById [] 1).body "timestamp" = none :=
  ⟨rfl, rfl, rfl, rfl, rfl⟩

/-- C1 amended: the bodies produced by the centralized error handler, the
unmatched-route handler and the validation middleware do carry the top-level
`error`/`message`/`timestamp` (plus `details`) envelope; but the Hono
controllers' domain errors are wrapped as the `data` payload without a
timestamp — in particular, a GET on a deleted or never-existing id returns
404 whose `error = "Not Found"` object sits under the top-level `data` key. -/
theorem error_envelope_amended (rows : List Row) (id : Nat)
    (e m ts method path : String) (dev : Bool) (ek : ErrKind)
    (details : List (String × String))
    (hmiss : rows.find? (fun r => r.id == id) = none) :
    topFields (createErrorResponse e m ts) = ["error", "message", "timestamp"] ∧
    topFields (errorHandler ek dev ts).2 = ["error", "message", "timestamp"] ∧
    (notFoundHandler method path ts).1 = 404 ∧
    lookupField (notFoundHandler method path ts).2 "error"
      = some (.str "Not Found") ∧
    topFields (validationErrorResponse details ts)
      = ["error", "message", "details", "timestamp"] ∧
    (getTaskById rows id).status = 404 ∧
    (getTaskById rows id).body = honoNotFoundBody id ∧
    topFields (getTaskById rows id).body = ["data"] ∧
    lookupField (getTaskById rows id).body "error" = none ∧
    lookupField (honoNotFoundBody id) "data"
      = some (.obj [("error", .str "Not Found"),
          ("message", .str ("Task with id " ++ toString id
            ++ " not found"))]) := by
  refine ⟨rfl, ?_, rfl, rfl, rfl, ?_, ?_, ?_, ?_, rfl⟩
  · cases ek <;> rfl
  · simp only [getTaskById, hmiss]
  · simp only [getTaskById, hmiss]
  · simp only [getTaskById, hmiss]
    rfl
  · simp only [getTaskById, hmiss]
    rfl

/-- C2: a PATCH on an existing row whose validated body has no present field
from the allow-list responds 400 (never 200) with the "No valid fields to
update" error and performs no write. -/
theorem patch_empty_fields_rejected (rows : List Row) (id : Nat)
    (u : PatchInput) (now : Nat)
    (hfound : (rows.find? fun x => x.id == id).isSome = true)
    (hempty : fieldsToUpdate u = []) :
    (patchTask rows id u now).status = 400 ∧
    ¬ (patchTask rows id u now).status = 200 ∧
    (patchTask rows id u now).rows = rows ∧
    lookupField (patchTask rows id u now).body "data"
      = some (.obj [("error", .str "Bad Request"),
          ("message", .str "No valid fields to update")]) := by
  obtain ⟨r, hr⟩ := Option.isSome_iff_exists.mp hfound
  have hz : (fieldsToUpdate u).length = 0 := by rw [hempty]; rfl
  simp only [patchTask, hr, if_pos hz]
  refine ⟨trivial, by decide, trivial, rfl⟩

/-- C3: a successful partial update assigns exactly the columns of the
present fields (with `completed` coerced to 0/1); `id` and `created_at` and
every absent mutable column keep their old values, `updated_at` is refreshed
to the update time, and every other row of the table is unchanged. -/
theorem patch_frame_effect (rows : List Row) (id : Nat) (u : PatchInput)
    (now : Nat) (r : Row)
    (hfind : rows.find? (fun x => x.id == id) = some r)
    (hne : ¬ (fieldsToUpdate u).length = 0) :
    (patchTask rows id u now).status = 200 ∧
    (patchTask rows id u now).rows.find? (fun x => x.id == id)
      = some { patchedRow u r with updated_at := now } ∧
    (patchedRow u r).id = r.id ∧
    (patchedRow u r).created_at = r.created_at ∧
    (u.title = none → (patchedRow u r).title = r.title) ∧
    (u.description = none
      → (patchedRow u r).description = r.description) ∧
    (u.completed = none → (patchedRow u r).completed = r.completed) ∧
    (u.priority = none → (patchedRow u r).priority = r.priority) ∧
    (∀ t, u.title = some t → (patchedRow u r).title = t) ∧
    (∀ d, u.description = some d → (patchedRow u r).description = d) ∧
    (∀ b, u.completed = some b
      → (patchedRow u r).completed = (if b then 1 else 0)) ∧
    (∀ p, u.priority = some p → (patchedRow u r).priority = p) ∧
    (∀ x ∈ rows, (x.id == id) = false
      → x ∈ (patchTask rows id u now).rows) ∧
    (patchTask rows id u now).rows.length = rows.length := by
  obtain ⟨h200, hrows, hfind', hmsg, hdata⟩ :=
    patchTask_found_spec rows id u now r hfind hne
  refine ⟨h200, hfind', rfl, rfl, ?_, ?_, ?_, ?_, ?_, ?_, ?_, ?_, ?_, ?_⟩
  · intro h; simp [patchedRow, h]
  · intro h; simp [patchedRow, h]
  · intro h; simp [patchedRow, h]
  · intro h; simp [patchedRow, h]
  · intro t h; simp [patchedRow, h]
  · intro d h; simp [patchedRow, h]
  · intro b h; simp [patchedRow, h, coerceBool]
  · intro p h; simp [patchedRow, h]
  · intro x hx hne2
    rw [hrows]
    exact runUpdate_mem_of_other rows id _ now x hx hne2
  · rw [hrows]
    exact runUpdate_length rows id _ now

/-- C6: a full update of an existing row overwrites all four mutable columns
with the validated input values regardless of the previous values — the
boolean coerced to 0/1, a null description stored as null — keeps `id` and
`created_at`, refreshes `updated_at`, and returns the re-read row with a
success message. -/
theorem full_update_overwrites_all (rows : List Row) (id : Nat)
    (input : UpdateInput) (now : Nat) (r : Row)
    (hfind : rows.find? (fun x => x.id == id) = some r) :
    (updateTask rows id input now).status = 200 ∧
    (updateTask rows id input now).rows.find? (fun x => x.id == id)
      = some { id := r.id, title := input.title,
               description := input.description,
               completed := if input.completed then 1 else 0,
               priority := input.priority, created_at := r.created_at,
               updated_at := now } ∧
    lookupField (updateTask rows id input now).body "message"
      = some (.str "Task updated successfully") ∧
    lookupField (updateTask rows id input now).body "data"
      = some (Row.toJson
          { id := r.id, title := input.title,
            description := input.description,
            completed := if input.completed then 1 else 0,
            priority := input.priority, created_at := r.created_at,
            updated_at := now }) := by
  have hfind' : (runUpdate rows id (fun x =>
      { x with title := input.title, description := input.description,
               completed := if input.completed then 1 else 0,
               priority := input.priority }) now).find? (fun x => x.id == id)
      = some { id := r.id, title := input.title,
               description := input.description,
               completed := if input.completed then 1 else 0,
               priority := input.priority, created_at := r.created_at,
               updated_at := now } :=
    runUpdate_find? rows id _ now r (fun x => rfl) hfind
  have hres : updateTask rows id input now =
      { status := 200,
        body := .obj [("message", .str "Task updated successfully"),
          ("data", ((((runUpdate rows id (fun x =>
            { x with title := input.title, description := input.description,
                     completed := if input.completed then 1 else 0,
                     priority := input.priority }) now).find?
            (fun x => x.id == id)).map Row.toJson).getD .null))],
        rows := runUpdate rows id (fun x =>
          { x with title := input.title, description := input.description,
                   completed := if input.completed then 1 else 0,
                   priority := input.priority }) now } := by
    simp only [updateTask, hfind]
  refine ⟨by rw [hres], ?_, by rw [hres]; rfl, ?_⟩
  · rw [hres]
    exact hfind'
  · rw [hres]
    show lookupPairs _ "data" = _
    rw [show ∀ v : JVal, lookupPairs [("message",
      JVal.str "Task updated successfully"), ("data", v)] "data" = v
      from fun v => rfl]
    rw [hfind']
    rfl

/-- C10: a falsy but defined field counts as present in a partial update —
`completed: false` stores 0 and `description: null` stores NULL; neither body
triggers the 400 "No valid fields to update" rejection. -/
theorem patch_falsy_present (rows : List Row) (id : Nat) (now : Nat) (r : Row)
    (hfind : rows.find? (fun x => x.id == id) = some r) :
    (patchTask rows id patchCompletedFalse now).status = 200 ∧
    ¬ (patchTask rows id patchCompletedFalse now).status = 400 ∧
    (patchTask rows id patchCompletedFalse now).rows.find?
      (fun x => x.id == id) = some { r with completed := 0,
                                            updated_at := now } ∧
    (patchTask rows id patchDescriptionNull now).status = 200 ∧
    ¬ (patchTask rows id patchDescriptionNull now).status = 400 ∧
    (patchTask rows id patchDescriptionNull now).rows.find?
      (fun x => x.id == id) = some { r with description := none,
                                            updated_at := now } := by
  obtain ⟨hc200, _, hcfind, _, _⟩ := patchTask_found_spec rows id
    patchCompletedFalse now r hfind (by decide)
  obtain ⟨hd200, _, hdfind, _, _⟩ := patchTask_found_spec rows id
    patchDescriptionNull now r hfind (by decide)
  refine ⟨hc200, by rw [hc200]; decide, ?_, hd200, by rw [hd200]; decide, ?_⟩
  · rw [hcfind]
    rfl
  · rw [hdfind]
    rfl

/-- C4: every list response reports `hasMore = offset + returnedCount <
total` with defaults limit 50 and offset 0; for a table of distinct-id rows
with `n` pages of size `L` covering it, the consecutive pages at offsets
`0, L, 2L, ...` are pairwise disjoint, together are a permutation of the
whole table, and `hasMore` holds exactly on the non-final pages. -/
theorem list_pagination (rows : List Row) (q : ListQuery) (L n k : Nat)
    (hids : (rows.map Row.id).Nodup)
    (hcover : rows.length ≤ n * L)
    (hlast : (n - 1) * L < rows.length)
    (hk : k < n) :
    (getAllTasks rows q).hasMore
      = decide ((getAllTasks rows q).offset
          + (getAllTasks rows q).data.length < (getAllTasks rows q).total) ∧
    (getAllTasks rows { completed := none, priority := none, limit := none,
                        offset := none }).limit = 50 ∧
    (getAllTasks rows { completed := none, priority := none, limit := none,
                        offset := none }).offset = 0 ∧
    (pages rows L n).flatten.Perm rows ∧
    List.Pairwise List.Disjoint (pages rows L n) ∧
    ((listPage rows L k).hasMore = true ↔ k < n - 1) := by
  refine ⟨rfl, rfl, rfl, ?_, pages_pairwise_disjoint rows L n hids hcover,
    listPage_hasMore_iff rows L n k hcover hlast hk⟩
  rw [pages_flatten rows L n hcover]
  exact sortByCreatedDesc_perm rows

/-- C5: under a monotone clock, every CRUD operation preserves the invariant
`created_at ≤ updated_at`; full and partial updates never modify any row's
`created_at` and refresh the target row's `updated_at` to the operation time
regardless of which fields changed; creation sets both timestamps to the
insertion time. -/
theorem timestamps_invariant (rows : List Row) (op : Op) (now : Nat)
    (id : Nat) (input : UpdateInput) (u : PatchInput) (freshId : Nat)
    (cinput : CreateInput)
    (hInv : Inv rows) (hnow : ∀ r ∈ rows, r.created_at ≤ now) :
    Inv (applyOp rows op now) ∧
    (updateTask rows id input now).rows.map Row.created_at
      = rows.map Row.created_at ∧
    (patchTask rows id u now).rows.map Row.created_at
      = rows.map Row.created_at ∧
    (∀ r' ∈ (updateTask rows id input now).rows,
      (r'.id == id) = true → r'.updated_at = now) ∧
    (¬ (fieldsToUpdate u).length = 0
      → ∀ r' ∈ (patchTask rows id u now).rows,
        (r'.id == id) = true → r'.updated_at = now) ∧
    (createTask rows freshId cinput now).rows
      = rows ++ [{ id := freshId, title := cinput.title,
                   description := cinput.description, completed := 0,
                   priority := cinput.priority, created_at := now,
                   updated_at := now }] :=
  ⟨applyOp_inv rows op now hInv hnow,
   updateTask_keeps_created_at rows id input now,
   patchTask_keeps_created_at rows id u now,
   fun r' hmem hid => updateTask_refreshes rows id input now r' hmem hid,
   fun hne r' hmem hid => patchTask_refreshes rows id u now r' hne hmem hid,
   rfl⟩

/-- A PATCH body containing only a new title. -/
def patchTitleOnly : PatchInput :=
  { title := some "new", description := none, completed := none,
    priority := none }

/-- A sample validated full-update body. -/
def sampleUpdateInput : UpdateInput :=
  { title := "updated", description := none, completed := true,
    priority := Priority.high }

/-- A sample validated create body. -/
def sampleCreateInput : CreateInput :=
  { title := "fresh", description := some "d", priority := Priority.low }

theorem error_envelope_amended_witness :
    (List.find? (fun r => r.id == 1) ([] : List Row) = none) ∧
    (topFields (createErrorResponse "E" "m" "T")
      = ["error", "message", "timestamp"] ∧
    topFields (errorHandler ErrKind.jsonSyntaxError true "T").2
      = ["error", "message", "timestamp"] ∧
    (notFoundHandler "GET" "/x" "T").1 = 404 ∧
    lookupField (notFoundHandler "GET" "/x" "T").2 "error"
      = some (.str "Not Found") ∧
    topFields (validationErrorResponse [("title", "Required")] "T")
      = ["error", "message", "details", "timestamp"] ∧
    (getTaskById [] 1).status = 404 ∧
    (getTaskById [] 1).body = honoNotFoundBody 1 ∧
    topFields (getTaskById [] 1).body = ["data"] ∧
    lookupField (getTaskById [] 1).body "error" = none ∧
    lookupField (honoNotFoundBody 1) "data"
      = some (.obj [("error", .str "Not Found"),
          ("message", .str ("Task with id " ++ toString 1
            ++ " not found"))])) :=
  ⟨rfl, error_envelope_amended [] 1 "E" "m" "T" "GET" "/x" true
    ErrKind.jsonSyntaxError [("title", "Required")] rfl⟩

theorem patch_empty_fields_rejected_witness :
    ((sampleRows.find? fun x => x.id == 1).isSome = true ∧
      fieldsToUpdate emptyPatch = []) ∧
    ((patchTask sampleRows 1 emptyPatch 5).status = 400 ∧
    ¬ (patchTask sampleRows 1 emptyPatch 5).status = 200 ∧
    (patchTask sampleRows 1 emptyPatch 5).rows = sampleRows ∧
    lookupField (patchTask sampleRows 1 emptyPatch 5).body "data"
      = some (.obj [("error", .str "Bad Request"),
          ("message", .str "No valid fields to update")])) :=
  ⟨⟨by decide, by decide⟩,
    patch_empty_fields_rejected sampleRows 1 emptyPatch 5 (by decide)
      (by decide)⟩

theorem patch_frame_effect_witness :
    (sampleRows.find? (fun x => x.id == 2) = some (sampleRow 2) ∧
      ¬ (fieldsToUpdate patchTitleOnly).length = 0) ∧
    ((patchTask sampleRows 2 patchTitleOnly 6).status = 200 ∧
    (patchTask sampleRows 2 patchTitleOnly 6).rows.find? (fun x => x.id == 2)
      = some { patchedRow patchTitleOnly (sampleRow 2) with
               updated_at := 6 } ∧
    (patchedRow patchTitleOnly (sampleRow 2)).id = (sampleRow 2).id ∧
    (patchedRow patchTitleOnly (sampleRow 2)).created_at
      = (sampleRow 2).created_at ∧
    (patchTitleOnly.title = none
      → (patchedRow patchTitleOnly (sampleRow 2)).title
        = (sampleRow 2).title) ∧
    (patchTitleOnly.description = none
      → (patchedRow patchTitleOnly (sampleRow 2)).description
        = (sampleRow 2).description) ∧
    (patchTitleOnly.completed = none
      → (patchedRow patchTitleOnly (sampleRow 2)).completed
        = (sampleRow 2).completed) ∧
    (patchTitleOnly.priority = none
      → (patchedRow patchTitleOnly (sampleRow 2)).priority
        = (sampleRow 2).priority) ∧
    (∀ t, patchTitleOnly.title = some t
      → (patchedRow patchTitleOnly (sampleRow 2)).title = t) ∧
    (∀ d, patchTitleOnly.description = some d
      → (patchedRow patchTitleOnly (sampleRow 2)).description = d) ∧
    (∀ b, patchTitleOnly.completed = some b
      → (patchedRow patchTitleOnly (sampleRow 2)).completed
        = (if b then 1 else 0)) ∧
    (∀ p, patchTitleOnly.priority = some p
      → (patchedRow patchTitleOnly (sampleRow 2)).priority = p) ∧
    (∀ x ∈ sampleRows, (x.id == 2) = false
      → x ∈ (patchTask sampleRows 2 patchTitleOnly 6).rows) ∧
    (patchTask sampleRows 2 patchTitleOnly 6).rows.length
      = sampleRows.length) :=
  ⟨⟨by decide, by decide⟩,
    patch_frame_effect sampleRows 2 patchTitleOnly 6 (sampleRow 2)
      (by decide) (by decide)⟩

theorem list_pagination_witness :
    ((sampleRows.map Row.id).Nodup ∧ sampleRows.length ≤ 2 * 2 ∧
      (2 - 1) * 2 < sampleRows.length ∧ 1 < 2) ∧
    ((getAllTasks sampleRows (pageQuery 2 0)).hasMore
      = decide ((getAllTasks sampleRows (pageQuery 2 0)).offset
          + (getAllTasks sampleRows (pageQuery 2 0)).data.length
          < (getAllTasks sampleRows (pageQuery 2 0)).total) ∧
    (getAllTasks sampleRows { completed := none, priority := none,
                              limit := none, offset := none }).limit = 50 ∧
    (getAllTasks sampleRows { completed := none, priority := none,
                              limit := none, offset := none }).offset = 0 ∧
    (pages sampleRows 2 2).flatten.Perm sampleRows ∧
    List.Pairwise List.Disjoint (pages sampleRows 2 2) ∧
    ((listPage sampleRows 2 1).hasMore = true ↔ 1 < 2 - 1)) :=
  ⟨⟨by decide, by decide, by decide, by decide⟩,
    list_pagination sampleRows (pageQuery 2 0) 2 2 1 (by decide) (by decide)
      (by decide) (by decide)⟩

theorem timestamps_invariant_witness :
    (Inv sampleRows ∧ ∀ r ∈ sampleRows, r.created_at ≤ 9) ∧
    (Inv (applyOp sampleRows (Op.patch 1 patchCompletedFalse) 9) ∧
    (updateTask sampleRows 1 sampleUpdateInput 9).rows.map Row.created_at
      = sampleRows.map Row.created_at ∧
    (patchTask sampleRows 1 patchCompletedFalse 9).rows.map Row.created_at
      = sampleRows.map Row.created_at ∧
    (∀ r' ∈ (updateTask sampleRows 1 sampleUpdateInput 9).rows,
      (r'.id == 1) = true → r'.updated_at = 9) ∧
    (¬ (fieldsToUpdate patchCompletedFalse).length = 0
      → ∀ r' ∈ (patchTask sampleRows 1 patchCompletedFalse 9).rows,
        (r'.id == 1) = true → r'.updated_at = 9) ∧
    (createTask sampleRows 7 sampleCreateInput 9).rows
      = sampleRows ++ [{ id := 7, title := sampleCreateInput.title,
                         description := sampleCreateInput.description,
                         completed := 0,
                         priority := sampleCreateInput.priority,
                         created_at := 9, updated_at := 9 }]) :=
  ⟨⟨by unfold Inv; decide, by decide⟩,
    timestamps_invariant sampleRows (Op.patch 1 patchCompletedFalse) 9 1
      sampleUpdateInput patchCompletedFalse 7 sampleCreateInput
      (by unfold Inv; decide) (by decide)⟩

theorem full_update_overwrites_all_witness :
    (sampleRows.find? (fun x => x.id == 1) = some (sampleRow 1)) ∧
    ((updateTask sampleRows 1 sampleUpdateInput 9).status = 200 ∧
    (updateTask sampleRows 1 sampleUpdateInput 9).rows.find?
      (fun x => x.id == 1)
      = some { id := (sampleRow 1).id, title := sampleUpdateInput.title,
               description := sampleUpdateInput.description,
               completed := if sampleUpdateInput.completed then 1 else 0,
               priority := sampleUpdateInput.priority,
               created_at := (sampleRow 1).created_at, updated_at := 9 } ∧
    lookupField (updateTask sampleRows 1 sampleUpdateInput 9).body "message"
      = some (.str "Task updated successfully") ∧
    lookupField (updateTask sampleRows 1 sampleUpdateInput 9).body "data"
      = some (Row.toJson
          { id := (sampleRow 1).id, title := sampleUpdateInput.title,
            description := sampleUpdateInput.description,
            completed := if sampleUpdateInput.completed then 1 else 0,
            priority := sampleUpdateInput.priority,
            created_at := (sampleRow 1).created_at, updated_at := 9 })) :=
  ⟨by decide,
    full_update_overwrites_all sampleRows 1 sampleUpdateInput 9 (sampleRow 1)
      (by decide)⟩

theorem patch_express_hono_equiv_witness :
    (∀ f, f ∈ [Field.completed] ↔ patchCompletedFalse.present f = true) ∧
    ((patchTaskExpress sampleRows 1 [Field.completed] patchCompletedFalse
        4).rows
      = (patchTask sampleRows 1 patchCompletedFalse 4).rows ∧
    (patchTaskExpress sampleRows 1 [Field.completed] patchCompletedFalse
        4).status
      = (patchTask sampleRows 1 patchCompletedFalse 4).status) :=
  ⟨by decide,
    patch_express_hono_equiv sampleRows 1 [Field.completed]
      patchCompletedFalse 4 (by decide)⟩

theorem patch_falsy_present_witness :
    (sampleRows.find? (fun x => x.id == 3) = some (sampleRow 3)) ∧
    ((patchTask sampleRows 3 patchCompletedFalse 4).status = 200 ∧
    ¬ (patchTask sampleRows 3 patchCompletedFalse 4).status = 400 ∧
    (patchTask sampleRows 3 patchCompletedFalse 4).rows.find?
      (fun x => x.id == 3)
      = some { sampleRow 3 with completed := 0, updated_at := 4 } ∧
    (patchTask sampleRows 3 patchDescriptionNull 4).status = 200 ∧
    ¬ (patchTask sampleRows 3 patchDescriptionNull 4).status = 400 ∧
    (patchTask sampleRows 3 patchDescriptionNull 4).rows.find?
      (fun x => x.id == 3)
      = some { sampleRow 3 with description := none, updated_at := 4 }) :=
  ⟨by decide,
    patch_falsy_present sampleRows 3 4 (sampleRow 3) (by decide)⟩
